import Mathlib

set_option maxRecDepth 16000

/-!
# Verification of the Teams notification-capture core (dotbot)

Shallow embedding of the notification extraction pipeline
(`NotificationManager.processWebSocketMessage` / `processNotificationPayload`),
the HTML normalizer (`extractTextFromHtml`), the local-storage token probe
(`TeamsManager.getAccessToken`), the authentication poll loop
(`TeamsManager.monitorAuthentication`) and the teardown routines
(`NotificationManager.stopMonitoring`, `TeamsManager.stopChrome`).

JavaScript values flowing through the pipeline are modelled by an inductive
`Json` type (with a distinguished `undefined` for the result of a missing property
lookup).  Operations that can raise a JavaScript exception (property access on
`null`/`undefined`, calling a method that does not exist on the receiver,
`JSON.parse` on malformed text) are modelled in an `Except` layer; the
`try`/`catch` blocks of the source become explicit `match`es on that layer.
All definitions are structurally recursive so that concrete runs reduce in the
kernel.
-/

namespace Dotbot

/-- A JavaScript value as it occurs in the pipeline: the JSON universe plus
`undefined`, the value of a missing property.  Numbers keep their literal
text (the pipeline never computes with numbers, only tests truthiness).
Arrays and objects are kept as cons chains inside the one inductive (so
every function over values is plainly structural): an array is
`arrCons e₁ (arrCons e₂ … arrNil)` and an object is
`objCons k₁ v₁ (objCons k₂ v₂ … objNil)`.  The smart constructors
`Json.arr` / `Json.obj` below build them from lists. -/
inductive Json where
  | null
  | undefined
  | bool (b : Bool)
  | num (lit : String)
  | str (s : String)
  | arrNil
  | arrCons (head tail : Json)
  | objNil
  | objCons (key : String) (val tail : Json)
deriving DecidableEq, Repr

/-- Build an array value from a list of elements. -/
def Json.arr (elems : List Json) : Json :=
  elems.foldr .arrCons .arrNil

/-- Build an object value from a list of members. -/
def Json.obj (members : List (String × Json)) : Json :=
  members.foldr (fun kv t => .objCons kv.1 kv.2 t) .objNil

/-! ## A model of `JSON.parse`

Structural on a fuel counter so every run reduces in the kernel.  Follows the
JSON grammar accepted by `JSON.parse`: optional whitespace, `null`/`true`/
`false`, double-quoted strings with the standard escapes, numbers, arrays and
objects; the whole input must be consumed. -/

def jsWsChar (c : Char) : Bool := c = ' ' || c = '\t' || c = '\n' || c = '\r'

def skipJsWs (cs : List Char) : List Char := cs.dropWhile jsWsChar

def jsDigit (c : Char) : Bool := 48 ≤ c.toNat && c.toNat ≤ 57

/-- Value of one hexadecimal digit, by code point (digits, then the two
letter ranges offset by 87 and 55). -/
def hexDigitVal (c : Char) : Option Nat :=
  let n := c.toNat
  if 48 ≤ n && n ≤ 57 then some (n - 48)
  else if 97 ≤ n && n ≤ 102 then some (n - 87)
  else if 65 ≤ n && n ≤ 70 then some (n - 55)
  else none

/-- The character a single-letter JSON escape denotes, if any. -/
def escChar (e : Char) : Option Char :=
  if e = '"' || e = '\\' || e = '/' then some e
  else if e = 'n' then some (Char.ofNat 10)
  else if e = 't' then some (Char.ofNat 9)
  else if e = 'r' then some (Char.ofNat 13)
  else if e = 'b' then some (Char.ofNat 8)
  else if e = 'f' then some (Char.ofNat 12)
  else none

/-- Body of a JSON string after the opening quote; `acc` is reversed.
Control characters are rejected, as `JSON.parse` does. -/
def jsonStrBody (acc : List Char) : List Char → Option (String × List Char)
  | '"' :: rest => some (String.mk acc.reverse, rest)
  | '\\' :: 'u' :: h1 :: h2 :: h3 :: h4 :: rest =>
    (match (do
      let a ← hexDigitVal h1
      let b ← hexDigitVal h2
      let c ← hexDigitVal h3
      let d ← hexDigitVal h4
      pure (Char.ofNat (d + 16 * (c + 16 * (b + 16 * a)))) :
        Option Char) with
     | some ch => jsonStrBody (ch :: acc) rest
     | none => none)
  | '\\' :: e :: rest =>
    (match escChar e with
     | some ch => jsonStrBody (ch :: acc) rest
     | none => none)
  | c :: rest => if c.toNat < 32 then none else jsonStrBody (c :: acc) rest
  | [] => none

def takeJsDigits (cs : List Char) : List Char × List Char :=
  (cs.takeWhile jsDigit, cs.dropWhile jsDigit)

/-- A JSON number literal: sign, integer part, optional fraction, optional
exponent.  Returns the literal text. -/
def jsonNumLit (cs : List Char) : Option (String × List Char) :=
  let (sgn, cs1) : List Char × List Char :=
    match cs with
    | '-' :: r => (['-'], r)
    | _ => ([], cs)
  match cs1 with
  | c :: r =>
    if jsDigit c then
      let (intPart, cs2) : List Char × List Char :=
        if c = '0' then (['0'], r)
        else
          let (ds, r2) := takeJsDigits r
          (c :: ds, r2)
      let (fracPart, cs3) : List Char × List Char :=
        match cs2 with
        | '.' :: r2 =>
          match takeJsDigits r2 with
          | ([], _) => ([], cs2)
          | (fs, r3) => ('.' :: fs, r3)
        | _ => ([], cs2)
      let (expPart, cs4) : List Char × List Char :=
        match cs3 with
        | 'e' :: r2 =>
          (match r2 with
           | '+' :: r3 => (match takeJsDigits r3 with
              | ([], _) => ([], cs3)
              | (es, r4) => ('e' :: '+' :: es, r4))
           | '-' :: r3 => (match takeJsDigits r3 with
              | ([], _) => ([], cs3)
              | (es, r4) => ('e' :: '-' :: es, r4))
           | _ => (match takeJsDigits r2 with
              | ([], _) => ([], cs3)
              | (es, r4) => ('e' :: es, r4)))
        | 'E' :: r2 =>
          (match r2 with
           | '+' :: r3 => (match takeJsDigits r3 with
              | ([], _) => ([], cs3)
              | (es, r4) => ('E' :: '+' :: es, r4))
           | '-' :: r3 => (match takeJsDigits r3 with
              | ([], _) => ([], cs3)
              | (es, r4) => ('E' :: '-' :: es, r4))
           | _ => (match takeJsDigits r2 with
              | ([], _) => ([], cs3)
              | (es, r4) => ('E' :: es, r4)))
        | _ => ([], cs3)
      some (String.mk (sgn ++ intPart ++ fracPart ++ expPart), cs4)
    else none
  | [] => none

/-- Mode of the single recursive JSON parsing function: a value, the items of
an array after `[`, or the members of an object after `{`. -/
inductive JMode where
  | top
  | arrItems
  | objItems
deriving DecidableEq, Repr

/-- The JSON parser proper; recursion is structural on the fuel. -/
def parseW : Nat → JMode → List Char → Option (Json × List Char)
  | 0, _, _ => none
  | fuel + 1, .top, cs =>
    match skipJsWs cs with
    | 'n' :: 'u' :: 'l' :: 'l' :: r => some (.null, r)
    | 't' :: 'r' :: 'u' :: 'e' :: r => some (.bool true, r)
    | 'f' :: 'a' :: 'l' :: 's' :: 'e' :: r => some (.bool false, r)
    | '"' :: r =>
      match jsonStrBody [] r with
      | some (s, rest) => some (.str s, rest)
      | none => none
    | '[' :: r =>
      (match skipJsWs r with
       | ']' :: r2 => some (.arrNil, r2)
       | r2 => parseW fuel .arrItems r2)
    | '{' :: r =>
      (match skipJsWs r with
       | '}' :: r2 => some (.objNil, r2)
       | r2 => parseW fuel .objItems r2)
    | r =>
      match jsonNumLit r with
      | some (lit, rest) => some (.num lit, rest)
      | none => none
  | fuel + 1, .arrItems, cs =>
    match parseW fuel .top cs with
    | some (v, r) =>
      (match skipJsWs r with
       | ',' :: r2 =>
         (match parseW fuel .arrItems r2 with
          | some (tail, rest) => some (.arrCons v tail, rest)
          | none => none)
       | ']' :: r2 => some (.arrCons v .arrNil, r2)
       | _ => none)
    | none => none
  | fuel + 1, .objItems, cs =>
    match skipJsWs cs with
    | '"' :: r =>
      (match jsonStrBody [] r with
       | some (k, r1) =>
         (match skipJsWs r1 with
          | ':' :: r2 =>
            (match parseW fuel .top r2 with
             | some (v, r3) =>
               (match skipJsWs r3 with
                | ',' :: r4 =>
                  (match parseW fuel .objItems r4 with
                   | some (tail, rest) => some (.objCons k v tail, rest)
                   | none => none)
                | '}' :: r4 => some (.objCons k v .objNil, r4)
                | _ => none)
             | none => none)
          | _ => none)
       | none => none)
    | _ => none

/-- `JSON.parse` on a string: parse one value and require the remainder to be
whitespace only. -/
def Json.parse (s : String) : Option Json :=
  match parseW (2 * s.length + 8) .top s.data with
  | some (v, rest) => if skipJsWs rest = [] then some v else none
  | none => none

/-! ## JavaScript value semantics

Truthiness, property access, and the String-prototype methods the pipeline
calls.  Calls that a JavaScript engine would reject with a `TypeError`
(property access on `null`/`undefined`, calling a string method on a value
that does not have it) are modelled in `Except`. -/

/-- A JS number is falsy iff it is zero; for a JSON numeral that holds iff the
part before any exponent has no nonzero digit. -/
def numLitTruthy (lit : String) : Bool :=
  (lit.data.takeWhile (fun c => c != 'e' && c != 'E')).any
    (fun c => '1' ≤ c && c ≤ '9')

/-- JavaScript truthiness (every array and object, even empty, is truthy). -/
def truthy : Json → Bool
  | .null => false
  | .undefined => false
  | .bool b => b
  | .num lit => numLitTruthy lit
  | .str s => s != ""
  | .arrNil => true
  | .arrCons _ _ => true
  | .objNil => true
  | .objCons _ _ _ => true

/-- Property lookup on an object chain: `JSON.parse` lets a later duplicate
key overwrite an earlier one, so the last binding wins; every non-object
receiver has no members. -/
def memberLookup (k : String) : Json → Option Json
  | .objCons k1 v tail =>
    (match memberLookup k tail with
     | some v2 => some v2
     | none => if k1 = k then some v else none)
  | _ => none

/-- `j[k]` on a receiver that is known not to be `null`/`undefined`: a missing
property (and any property of a primitive or array receiver) is `undefined`. -/
def jget (j : Json) (k : String) : Json :=
  (memberLookup k j).getD .undefined

/-- `j[k]` as the engine evaluates it: property access on `null` or
`undefined` throws a TypeError. -/
def jsGet (j : Json) (k : String) : Except String Json :=
  match j with
  | .null => .error "TypeError: cannot read properties of null"
  | .undefined => .error "TypeError: cannot read properties of undefined"
  | _ => .ok (jget j k)

def isPrefixList : List Char → List Char → Bool
  | [], _ => true
  | _ :: _, [] => false
  | p :: ps, h :: hs => p == h && isPrefixList ps hs

def hasInfixList (pat : List Char) : List Char → Bool
  | [] => isPrefixList pat []
  | c :: hs => isPrefixList pat (c :: hs) || hasInfixList pat hs

/-- `hay.includes(pat)` for strings. -/
def strIncludes (hay pat : String) : Bool := hasInfixList pat.data hay.data

/-- `s.startsWith(pre)`. -/
def strStartsWith (s pre : String) : Bool := isPrefixList pre.data s.data

/-- `s.endsWith(post)`. -/
def strEndsWith (s post : String) : Bool :=
  isPrefixList post.data.reverse s.data.reverse

/-- Membership of the string `pat` in an array chain (`Array.prototype.includes`
uses SameValueZero, under which only a string element can equal a string
argument). -/
def arrHasStr (pat : String) : Json → Bool
  | .arrCons e tail =>
    (match e with
     | .str s => s == pat
     | _ => false) || arrHasStr pat tail
  | _ => false

/-- `v.includes(pat)`: substring test on strings, membership on arrays; any
other receiver has no `includes` and the call throws. -/
def jsIncludes (v : Json) (pat : String) : Except String Bool :=
  match v with
  | .str s => .ok (strIncludes s pat)
  | .arrNil => .ok false
  | .arrCons e tail => .ok (arrHasStr pat (.arrCons e tail))
  | _ => .error "TypeError: includes is not a function"

/-- `v.endsWith(pat)`: a String-prototype method only. -/
def jsEndsWith (v : Json) (pat : String) : Except String Bool :=
  match v with
  | .str s => .ok (strEndsWith s pat)
  | _ => .error "TypeError: endsWith is not a function"

/-- The ToString coercion: `null`/`undefined`/booleans print their names, a
number prints its literal (the engine would print the normalized numeral,
which re-parses to the same number and can never equal the non-numeric
literals of the filters, so the difference is unobservable here), a string is
itself, a plain object is `[object Object]`, and an array joins its elements
with commas — a `null`/`undefined` element becoming empty, per
`Array.prototype.join`, and a nested array joining recursively. -/
def jsToString : Json → String
  | .null => "null"
  | .undefined => "undefined"
  | .bool b => if b then "true" else "false"
  | .num lit => lit
  | .str s => s
  | .objNil => "[object Object]"
  | .objCons _ _ _ => "[object Object]"
  | .arrNil => ""
  | .arrCons e tail =>
    (match e with
     | .null => ""
     | .undefined => ""
     | _ => jsToString e) ++
    (match tail with
     | .arrCons _ _ => "," ++ jsToString tail
     | _ => "")

/-- `v == lit` for the non-numeric string literals the pipeline compares
against: a string compares directly; an array or object goes through
ToPrimitive — its ToString — and the result is compared (so
`["POST"] == "POST"` is true); `null`, `undefined`, booleans and numbers
coerce numerically and can never equal these non-numeric literals. -/
def jsEqStr (v : Json) (lit : String) : Bool :=
  match v with
  | .str s => s == lit
  | .arrNil => jsToString .arrNil == lit
  | .arrCons e tail => jsToString (.arrCons e tail) == lit
  | .objNil => jsToString .objNil == lit
  | .objCons k x tail => jsToString (.objCons k x tail) == lit
  | _ => false

/-- `v.toLowerCase()`: a String-prototype method only. -/
def jsToLower (v : Json) : Except String String :=
  match v with
  | .str s => .ok (String.mk (s.data.map Char.toLower))
  | _ => .error "TypeError: toLowerCase is not a function"

/-- `a || b`. -/
def jsOr (a b : Json) : Json := if truthy a then a else b

/-! ## `extractTextFromHtml` (src/unnamed/part_005, helpers.ts)

`html.replace(/<[^>]*>/g, '').replace(/&nbsp;/g, ' ')...  .trim()`,
reimplemented with structural recursion. -/

/-- The global regex `<[^>]*>`: at each `<` that is followed (without an
intervening `>`) by a `>`, drop through that `>`; a `<` never followed by a
`>` matches nothing, and no later match is possible either, so the remainder
is kept verbatim. -/
def stripTagsW : Nat → List Char → List Char
  | 0, cs => cs
  | _ + 1, [] => []
  | fuel + 1, '<' :: cs =>
    (match cs.dropWhile (fun c => c != '>') with
     | '>' :: rest => stripTagsW fuel rest
     | _ => '<' :: cs)
  | fuel + 1, c :: cs => c :: stripTagsW fuel cs

/-- `s.replace(/pat/g, repl)` for a literal, nonempty pattern: scan left to
right, replacing non-overlapping occurrences; the replacement itself is not
rescanned. -/
def replaceAllW (pat repl : List Char) : Nat → List Char → List Char
  | 0, cs => cs
  | _ + 1, [] => []
  | fuel + 1, c :: cs =>
    if isPrefixList pat (c :: cs) then
      repl ++ replaceAllW pat repl fuel (List.drop pat.length (c :: cs))
    else c :: replaceAllW pat repl fuel cs

def strReplaceAll (s pat repl : String) : String :=
  String.mk (replaceAllW pat.data repl.data (s.length + 1) s.data)

/-- `s.trim()` (the inputs here only carry ASCII whitespace). -/
def strTrim (s : String) : String :=
  String.mk (((s.data.dropWhile Char.isWhitespace).reverse.dropWhile
    Char.isWhitespace).reverse)

/-- `extractTextFromHtml`: strip HTML tags, decode six common entities in the order the source uses, then trim. -/
def extractTextFromHtml (html : String) : String :=
  let s0 := String.mk (stripTagsW (html.length + 1) html.data)
  let s1 := strReplaceAll s0 "&nbsp;" " "
  let s2 := strReplaceAll s1 "&amp;" "&"
  let s3 := strReplaceAll s2 "&lt;" "<"
  let s4 := strReplaceAll s3 "&gt;" ">"
  let s5 := strReplaceAll s4 "&quot;" "\""
  let s6 := strReplaceAll s5 "&#39;" (String.mk [Char.ofNat 39])
  strTrim s6

/-- `extractTextFromHtml(v)` for an arbitrary JS value: on a non-string the
first `.replace` is not a function and the call throws. -/
def jsExtractText (v : Json) : Except String String :=
  match v with
  | .str s => .ok (extractTextFromHtml s)
  | _ => .error "TypeError: replace is not a function"

/-! ## The notification extraction pipeline

`NotificationManager.processWebSocketMessage` /
`processNotificationPayload` (notification-manager.ts:276-360).  The record
that the surviving payload is mapped to is the one handed to
`storage.addNotificationMessage` and to the UI. -/

/-- The record built at notification-manager.ts:336-346. -/
structure NotificationRecord where
  id : Json
  sessionId : String
  timestamp : Json
  «from» : Json
  content : String
  conversationId : Json
  conversationName : Json
  messageType : Json
  isRead : Bool

/-- Ambient state read during one frame: the active notification session
(`this.currentNotificationSession`), the current time
(`new Date().toISOString()`) and the next generated message id
(`generateMessageId()`). -/
structure EmitCtx where
  currentSession : Option String
  nowIso : String
  freshId : String

/-- The denylist of notification-manager.ts:323-325. -/
def dontContains : List String :=
  ["Event", "Call", "ThreadActivity", "MemberConsumptionHorizonUpdate"]

/-- Truthiness of `this.currentNotificationSession : string | null`. -/
def sessionTruthy : Option String → Bool
  | some s => s != ""
  | none => false

/-- `JSON.parse(v)` for an arbitrary JS argument: the engine first coerces
the argument to a string (so a string parses as itself, a primitive
re-parses to itself, and an array joins its elements — a one-string-element
array parses as that element), then parses it, raising on failure. -/
def jsonParseVal (v : Json) : Except String Json :=
  match Json.parse (jsToString v) with
  | some j => .ok j
  | none => .error "SyntaxError: Unexpected token"

/-- The envelope filter of notification-manager.ts:305-309:
`messageData.url`, then `url.includes` of `v4/f`, then `url.endsWith` of
`/messaging`, then `messageData.body`, then `messageData.method == "POST"`,
with the left-to-right short-circuit evaluation of the source. -/
def envelopeCheck (md : Json) : Except String Bool :=
  match jsGet md "url" with
  | .error e => .error e
  | .ok url =>
    if truthy url = false then .ok false
    else
      match jsIncludes url "v4/f" with
      | .error e => .error e
      | .ok false => .ok false
      | .ok true =>
        match jsEndsWith url "/messaging" with
        | .error e => .error e
        | .ok false => .ok false
        | .ok true =>
          match jsGet md "body" with
          | .error e => .error e
          | .ok b =>
            if truthy b = false then .ok false
            else
              match jsGet md "method" with
              | .error e => .error e
              | .ok m => .ok (jsEqStr m "POST")

/-- `dontContains.some(type => messageType.includes(type))`, short-circuiting
like `Array.prototype.some`. -/
def anyIncludes (mt : Json) : List String → Except String Bool
  | [] => .ok false
  | t :: ts =>
    match jsIncludes mt t with
    | .error e => .error e
    | .ok true => .ok true
    | .ok false => anyIncludes mt ts

/-- The body filter of notification-manager.ts:328-335:
`notificationBody.resource && type == "EventMessage" &&
resourceType == "NewMessage" && resource.content &&
this.currentNotificationSession && resource.messageType &&
!dontContains.some(...)`. -/
def bodyCheck (ctx : EmitCtx) (nb : Json) : Except String Bool :=
  match jsGet nb "resource" with
  | .error e => .error e
  | .ok res =>
    if truthy res = false then .ok false
    else
      match jsGet nb "type" with
      | .error e => .error e
      | .ok ty =>
        if jsEqStr ty "EventMessage" = false then .ok false
        else
          match jsGet nb "resourceType" with
          | .error e => .error e
          | .ok rt =>
            if jsEqStr rt "NewMessage" = false then .ok false
            else
              match jsGet res "content" with
              | .error e => .error e
              | .ok c =>
                if truthy c = false then .ok false
                else if sessionTruthy ctx.currentSession = false then .ok false
                else
                  match jsGet res "messageType" with
                  | .error e => .error e
                  | .ok mt =>
                    if truthy mt = false then .ok false
                    else
                      match anyIncludes mt dontContains with
                      | .error e => .error e
                      | .ok b => .ok (!b)

/-- The record construction of notification-manager.ts:336-346.  On this path
`bodyCheck` has passed, so `nb` and its truthy `resource` are not
`null`/`undefined` and plain `jget` access matches the engine; only
`extractTextFromHtml` can still throw (when `resource.content` is not a
string). -/
def buildRecord (ctx : EmitCtx) (nb : Json) : Except String NotificationRecord :=
  let res := jget nb "resource"
  match jsExtractText (jget res "content") with
  | .error e => .error e
  | .ok stripped =>
    .ok
      { id := jsOr (jget res "id") (.str ctx.freshId)
        sessionId := ctx.currentSession.getD ""
        timestamp := jsOr (jget nb "time") (.str ctx.nowIso)
        «from» := jsOr (jget res "imdisplayname") (.str "Unknown")
        content := stripped
        conversationId := jsOr (jget res "to") (.str "")
        conversationName := jsOr (jget res "threadtopic") (.str "")
        messageType := jsOr (jget res "messagetype") (.str "Text")
        isRead := false }

/-- `processNotificationPayload` before its outer `catch`: `.error` is a raise
that the `try`/`catch` of notification-manager.ts:301-359 will swallow, while
the inner `try` around `JSON.parse(messageData.body)` (lines 316-321) returns
`none` itself. -/
def processNotificationPayloadE (ctx : EmitCtx) (payload : String) :
    Except String (Option NotificationRecord) :=
  if payload = "" then .ok none
  else
    match Json.parse payload with
    | none => .error "SyntaxError: Unexpected token"
    | some md =>
      match envelopeCheck md with
      | .error e => .error e
      | .ok false => .ok none
      | .ok true =>
        match jsGet md "body" with
        | .error e => .error e
        | .ok bodyJ =>
          match jsonParseVal bodyJ with
          | .error _ => .ok none
          | .ok nb =>
            match bodyCheck ctx nb with
            | .error e => .error e
            | .ok false => .ok none
            | .ok true =>
              match buildRecord ctx nb with
              | .error e => .error e
              | .ok r => .ok (some r)

/-- `processNotificationPayload`: the outer `catch` swallows any raise
("Not valid JSON payload, skip silently"). -/
def processNotificationPayload (ctx : EmitCtx) (payload : String) :
    Option NotificationRecord :=
  match processNotificationPayloadE ctx payload with
  | .ok o => o
  | .error _ => none

/-- The substring of `s` from the first brace (`payloadData.substring(jsonStart)`
at notification-manager.ts:283-285). -/
def braceSuffix (s : String) : String :=
  String.mk (s.data.dropWhile (fun c => c != '{'))

/-- `processWebSocketMessage` (notification-manager.ts:276-288): drop SignalR
keep-alive frames (`5:` prefix), cut everything before the first `{` (no brace
means no processing), then run `processNotificationPayload`.  The result is
the record stored and pushed to the UI for this frame, if any. -/
def processWebSocketMessage (ctx : EmitCtx) (payloadData : String) :
    Option NotificationRecord :=
  if strStartsWith payloadData "5:" then none
  else if payloadData.data.contains '{' then
    processNotificationPayload ctx (braceSuffix payloadData)
  else none

/-! ## The local-storage access-token probe

The in-page scan of `TeamsManager.getAccessToken` (src/unnamed/part_000:304-339).
Local storage is a list of key/value string pairs in enumeration order. -/

/-- The three required key substrings (part_000:311-313). -/
def tokenKeyMatches (key : String) : Bool :=
  strIncludes key "login.windows.net-accesstoken" &&
  strIncludes key "teams.accessasuser.all" &&
  strIncludes key "teams.office.com/.default"

/-- The per-key `try` block (part_000:315-333) before its `catch`: skip an
empty value (`if (!value) continue`), `JSON.parse` it (a raise on malformed
JSON), then test `parsedValue && parsedValue.secret &&
parsedValue.credentialType && parsedValue.credentialType.toLowerCase() === accesstoken`
(a string comparison); on success the scan returns `parsedValue.secret`. -/
def entryTokenE (v : String) : Except String (Option Json) :=
  if v = "" then .ok none
  else
    match Json.parse v with
    | none => .error "SyntaxError: Unexpected token"
    | some pv =>
      if truthy pv = false then .ok none
      else
        match jsGet pv "secret" with
        | .error e => .error e
        | .ok sec =>
          if truthy sec = false then .ok none
          else
            match jsGet pv "credentialType" with
            | .error e => .error e
            | .ok ct =>
              if truthy ct = false then .ok none
              else
                match jsToLower ct with
                | .error e => .error e
                | .ok lower =>
                  if lower = "accesstoken" then .ok (some sec) else .ok none

/-- One entry of the scan loop: skip an empty key (`if (!key) continue`), skip
keys missing one of the three substrings, then run the guarded `try` block —
a raise inside it is caught and the scan continues (`catch ... continue`). -/
def entryToken (k v : String) : Option Json :=
  if k = "" then none
  else if tokenKeyMatches k = false then none
  else
    match entryTokenE v with
    | .ok r => r
    | .error _ => none

/-- The scan: walk the entries in order and return the first matching secret,
else null. -/
def getAccessTokenScan : List (String × String) → Option Json
  | [] => none
  | (k, v) :: rest =>
    match entryToken k v with
    | some sec => some sec
    | none => getAccessTokenScan rest

/-! ## The authentication poll loop

`TeamsManager.monitorAuthentication` (part_000:377-438), driven by the
sequence of `getAccessToken` results at each tick. -/

/-- The poll interval (part_000:437, `}, 2000)`). -/
def authCheckIntervalMs : Nat := 2000

/-- `maxChecks` (part_000:383). -/
def maxAuthChecks : Nat := 120

inductive AuthOutcome where
  | authenticated (token : String)
  | timedOut
deriving DecidableEq, Repr

/-- `isAuthenticated()` (part_000:44-48) on one `getAccessToken` result:
authenticated iff the token is non-null with a nonempty trim; the
`teams-auth-status` report carries the token only when authenticated. -/
def authStep : Option String → Bool × Option String
  | some t => if strTrim t = "" then (false, none) else (true, some t)
  | none => (false, none)

/-- The `setInterval` loop (part_000:385-438): tick `n` increments the
counter, sends one `teams-auth-status` report, stops with success on a valid
token, and otherwise stops with a timeout once the counter reaches
`maxChecks`.  `remaining` is `maxChecks - checkCount`, the number of further
ticks allowed.  Returns the outcome, the number of polls performed, and the
reports sent (oldest first). -/
def monitorGo (checks : Nat → Option String) :
    Nat → Nat → AuthOutcome × Nat × List (Bool × Option String)
  | 0, n =>
    if (authStep (checks n)).1 then
      (.authenticated ((authStep (checks n)).2.getD ""), n + 1,
        [authStep (checks n)])
    else (.timedOut, n + 1, [authStep (checks n)])
  | r + 1, n =>
    if (authStep (checks n)).1 then
      (.authenticated ((authStep (checks n)).2.getD ""), n + 1,
        [authStep (checks n)])
    else
      ((monitorGo checks r (n + 1)).1, (monitorGo checks r (n + 1)).2.1,
        authStep (checks n) :: (monitorGo checks r (n + 1)).2.2)

/-- `monitorAuthentication` with a poll budget of `maxChecks` (the source
fixes `maxChecks = maxAuthChecks = 120`); the interval always fires at least
once. -/
def monitorAuthentication (checks : Nat → Option String) (maxChecks : Nat) :
    AuthOutcome × Nat × List (Bool × Option String) :=
  monitorGo checks (maxChecks - 1) 0

/-! ## Teardown state machines

`NotificationManager.stopMonitoring` (notification-manager.ts:50-89),
`NotificationManager.startMonitoring` (ibid. 24-48) and
`TeamsManager.stopChrome` (part_000:115-143).  CDP sessions are identified by
numbers; which external calls fail by raising is an environment parameter. -/

/-- The mutable fields of `NotificationManager` that monitoring start/stop
touch. -/
structure NMState where
  hasChromePage : Bool
  cdpClient : Option Nat
  isMonitoring : Bool
  activeSessions : List Nat
  currentSession : Option String
deriving DecidableEq, Repr

/-- Which teardown calls raise: `session.detach()` per tracked session,
`this.chromePage._cdpClient.detach()`, `storage.endNotificationSession`. -/
structure StopEnv where
  sessionDetachFails : Nat → Bool
  clientDetachFails : Nat → Bool
  endSessionFails : Bool

/-- The detach loop of notification-manager.ts:57-63: each `session.detach()`
sits in its own `try`/`catch` whose handler only logs, so a failing detach
never aborts the remaining detaches. -/
def detachLoop (env : StopEnv) : List Nat → Except String Unit
  | [] => .ok ()
  | s :: rest =>
    match (if env.sessionDetachFails s then Except.error "detach failed"
           else Except.ok () : Except String Unit) with
    | .ok _ => detachLoop env rest
    | .error _ => detachLoop env rest

/-- The main-client cleanup of notification-manager.ts:66-74: when a page
and a stored client exist, detach the client inside its own `try`/`catch`;
only on success is the client nulled. -/
def detachMainClient (env : StopEnv) (st : NMState) : NMState :=
  if st.hasChromePage then
    match st.cdpClient with
    | some c =>
      if env.clientDetachFails c then st else { st with cdpClient := none }
    | none => st
  else st

/-- The `try` body of `stopMonitoring` (lines 55-84): run the detach loop
(whose per-session handlers keep any raise from escaping), clear the tracked
set, detach the main client, then `endNotificationSession` — whose raise
escapes to the outer `catch`, modelled by `.error` carrying the state mutated
so far. -/
def stopMonitoringBody (env : StopEnv) (st : NMState) : Except NMState NMState :=
  match detachLoop env st.activeSessions with
  | .error _ => .error st
  | .ok _ =>
    let st2 := detachMainClient env { st with activeSessions := [] }
    match st2.currentSession with
    | some _ =>
      if env.endSessionFails then .error st2
      else .ok { st2 with currentSession := none, isMonitoring := false }
    | none => .ok { st2 with isMonitoring := false }

/-- `stopMonitoring`: early return when not monitoring, else the body under
the outer `catch` (which logs and returns normally). -/
def stopMonitoring (env : StopEnv) (st : NMState) : NMState :=
  if st.isMonitoring = false then st
  else
    match stopMonitoringBody env st with
    | .ok s => s
    | .error s => s

/-- `stopMonitoring` as a possibly-raising call: the guard cannot raise and
the outer `catch` swallows every raise of the body, so the call never
propagates one. -/
def stopMonitoringRun (env : StopEnv) (st : NMState) : Except String NMState :=
  if st.isMonitoring = false then .ok st
  else
    match stopMonitoringBody env st with
    | .ok s => .ok s
    | .error s => .ok s

/-- `startMonitoring` reduced to the state it establishes: guard on a missing
page or already-active monitoring; `storage.createNotificationSession` may
raise (caught, leaving the state unchanged); the CDP sessions attached during
setup are abstracted as `attached` and the created client as `client`
(stored only if no client is stored yet, notification-manager.ts:267-269). -/
def startMonitoring (createFails : Bool) (newSessionId : String)
    (attached : List Nat) (client : Option Nat) (st : NMState) : NMState :=
  if st.hasChromePage = false || st.isMonitoring then st
  else if createFails then st
  else
    { st with
      currentSession := some newSessionId
      activeSessions := attached
      cdpClient := st.cdpClient <|> client
      isMonitoring := true }

/-- The mutable fields of `TeamsManager` that `stopChrome` touches, plus the
embedded notification manager state. -/
structure TMState where
  nm : NMState
  hasNotificationManager : Bool
  keepAliveInterval : Option Nat
  powerSaveBlockerId : Option Nat
  isTeamsActive : Bool
  chromePageOpen : Bool
  chromePageClosed : Bool
  chromeBrowserOpen : Bool

structure StopChromeEnv where
  nmEnv : StopEnv
  pageCloseFails : Bool
  browserCloseFails : Bool

/-- `stopKeepAlive` (part_000:492-508): clear the timer if set, stop the
power-save blocker if held, mark inactive; nothing here raises. -/
def stopKeepAlive (st : TMState) : TMState :=
  { st with keepAliveInterval := none, powerSaveBlockerId := none,
            isTeamsActive := false }

/-- The `try` body of `stopChrome` (part_000:116-137): stop monitoring first
(never raises), stop keep-alive, close the page when present and not already
closed (nulling it only on success), then close the browser.  A raise carries
the state reached so far out to the `catch`. -/
def stopChromeBody (env : StopChromeEnv) (st : TMState) :
    Except TMState (TMState × Bool) :=
  let st1 : TMState :=
    if st.hasNotificationManager then
      { st with nm := stopMonitoring env.nmEnv st.nm }
    else st
  let st2 := stopKeepAlive st1
  match (if st2.chromePageOpen && !st2.chromePageClosed then
           if env.pageCloseFails then Except.error st2
           else Except.ok { st2 with chromePageOpen := false }
         else Except.ok st2 : Except TMState TMState) with
  | .error s => .error s
  | .ok st3 =>
    if st3.chromeBrowserOpen then
      if env.browserCloseFails then .error st3
      else .ok ({ st3 with chromeBrowserOpen := false }, true)
    else .ok (st3, true)

/-- `stopChrome`: the body under its `catch`, which returns
`{success: false}` with the state reached; a raise never propagates. -/
def stopChromeRun (env : StopChromeEnv) (st : TMState) :
    Except String (TMState × Bool) :=
  match stopChromeBody env st with
  | .ok r => .ok r
  | .error s => .ok (s, false)

/-- The state/flag pair `stopChrome` ends in. -/
def stopChrome (env : StopChromeEnv) (st : TMState) : TMState × Bool :=
  match stopChromeBody env st with
  | .ok r => r
  | .error s => (s, false)

/-! ## Structural lemmas about the pipeline -/

theorem jsEndsWith_ok {v : Json} {pat : String} {b : Bool}
    (h : jsEndsWith v pat = .ok b) : ∃ s, v = .str s ∧ b = strEndsWith s pat := by
  cases v <;> simp [jsEndsWith] at h
  case str s => exact ⟨s, rfl, h.symm⟩

/-- Unpack a successful envelope filter: the `url` must be a string (an array
could pass `includes` but `endsWith` would then throw), containing `v4/f` and
ending in `/messaging`; the `body` is present and truthy; the `method` is
loosely equal to `"POST"` (a string, or an array or object whose ToString
coercion is `POST`). -/
theorem envelopeCheck_ok_true {md : Json} (h : envelopeCheck md = .ok true) :
    (∃ us, jsGet md "url" = .ok (.str us) ∧ strIncludes us "v4/f" = true ∧
      strEndsWith us "/messaging" = true) ∧
    (∃ b, jsGet md "body" = .ok b ∧ truthy b = true) ∧
    (∃ m, jsGet md "method" = .ok m ∧ jsEqStr m "POST" = true) := by
  unfold envelopeCheck at h
  split at h
  · exact absurd h (by simp)
  next url hu =>
    split at h
    · exact absurd h (by simp)
    next htr =>
      split at h
      · exact absurd h (by simp)
      · exact absurd h (by simp)
      next hinc =>
        split at h
        · exact absurd h (by simp)
        · exact absurd h (by simp)
        next hend =>
          split at h
          · exact absurd h (by simp)
          next b hb =>
            split at h
            · exact absurd h (by simp)
            next hbt =>
              split at h
              · exact absurd h (by simp)
              next m hm =>
                obtain ⟨us, rfl, _⟩ := jsEndsWith_ok hend
                simp only [Except.ok.injEq] at h
                refine ⟨⟨us, hu, ?_, ?_⟩, ⟨b, hb, ?_⟩, ⟨m, hm, h⟩⟩
                · simpa [jsIncludes] using hinc
                · simpa [jsEndsWith] using hend
                · simpa using hbt

/-- Unpack a successful body filter. -/
theorem bodyCheck_ok_true {ctx : EmitCtx} {nb : Json}
    (h : bodyCheck ctx nb = .ok true) :
    (∃ res, jsGet nb "resource" = .ok res ∧ truthy res = true ∧
      (∃ c, jsGet res "content" = .ok c ∧ truthy c = true) ∧
      (∃ mt, jsGet res "messageType" = .ok mt ∧ truthy mt = true ∧
        anyIncludes mt dontContains = .ok false)) ∧
    (∃ ty, jsGet nb "type" = .ok ty ∧ jsEqStr ty "EventMessage" = true) ∧
    (∃ rt, jsGet nb "resourceType" = .ok rt ∧ jsEqStr rt "NewMessage" = true) ∧
    sessionTruthy ctx.currentSession = true := by
  unfold bodyCheck at h
  split at h
  · exact absurd h (by simp)
  next res hres =>
    split at h
    · exact absurd h (by simp)
    next hrt =>
      split at h
      · exact absurd h (by simp)
      next ty hty =>
        split at h
        · exact absurd h (by simp)
        next htyeq =>
          split at h
          · exact absurd h (by simp)
          next rt hrtg =>
            split at h
            · exact absurd h (by simp)
            next hrteq =>
              split at h
              · exact absurd h (by simp)
              next c hc =>
                split at h
                · exact absurd h (by simp)
                next hct =>
                  split at h
                  · exact absurd h (by simp)
                  next hsess =>
                    split at h
                    · exact absurd h (by simp)
                    next mt hmt =>
                      split at h
                      · exact absurd h (by simp)
                      next hmtt =>
                        split at h
                        · exact absurd h (by simp)
                        next bb hany =>
                          simp only [Except.ok.injEq, Bool.not_eq_eq_eq_not,
                            Bool.not_true] at h
                          exact ⟨⟨res, hres, by simpa using hrt,
                            ⟨c, hc, by simpa using hct⟩,
                            ⟨mt, hmt, by simpa using hmtt, by rw [hany, h]⟩⟩,
                            ⟨ty, hty, by simpa using htyeq⟩,
                            ⟨rt, hrtg, by simpa using hrteq⟩,
                            by simpa using hsess⟩

theorem jsExtractText_ok {v : Json} {s : String} (h : jsExtractText v = .ok s) :
    ∃ cs, v = .str cs ∧ s = extractTextFromHtml cs := by
  cases v <;> simp [jsExtractText] at h
  case str cs => exact ⟨cs, rfl, h.symm⟩

theorem jsGet_of_truthy {res : Json} (h : truthy res = true) (k : String) :
    jsGet res k = .ok (jget res k) := by
  cases res <;> simp_all [truthy, jsGet]

/-- Unpack a successful record construction: `resource.content` was a string
and every field is the expression the source builds over the body. -/
theorem buildRecord_ok {ctx : EmitCtx} {nb : Json} {r : NotificationRecord}
    (h : buildRecord ctx nb = .ok r) :
    ∃ cs, jget (jget nb "resource") "content" = .str cs ∧
      r = { id := jsOr (jget (jget nb "resource") "id") (.str ctx.freshId)
            sessionId := ctx.currentSession.getD ""
            timestamp := jsOr (jget nb "time") (.str ctx.nowIso)
            «from» := jsOr (jget (jget nb "resource") "imdisplayname")
              (.str "Unknown")
            content := extractTextFromHtml cs
            conversationId := jsOr (jget (jget nb "resource") "to") (.str "")
            conversationName := jsOr (jget (jget nb "resource") "threadtopic")
              (.str "")
            messageType := jsOr (jget (jget nb "resource") "messagetype")
              (.str "Text")
            isRead := false } := by
  simp only [buildRecord] at h
  split at h
  · exact absurd h (by simp)
  next stripped hex =>
    obtain ⟨cs, hcs, rfl⟩ := jsExtractText_ok hex
    simp only [Except.ok.injEq] at h
    exact ⟨cs, hcs, h.symm⟩

/-- A property access that returned normally returned the `jget` value. -/
theorem jsGet_ok_eq {j : Json} {k : String} {v : Json}
    (h : jsGet j k = .ok v) : v = jget j k := by
  cases j <;> simp [jsGet] at h <;> exact h.symm

/-- `JSON.parse` of an arbitrary argument succeeds exactly on the parse of
its ToString coercion. -/
theorem jsonParseVal_ok {bj nb : Json} (hp : jsonParseVal bj = .ok nb) :
    Json.parse (jsToString bj) = some nb := by
  unfold jsonParseVal at hp
  split at hp
  next j hj =>
    simp only [Except.ok.injEq] at hp
    rw [hj, hp]
  · exact absurd hp (by simp)

/-- Unpack an emitted record at the `processNotificationPayloadE` level. -/
theorem ppayloadE_some {ctx : EmitCtx} {payload : String}
    {r : NotificationRecord}
    (h : processNotificationPayloadE ctx payload = .ok (some r)) :
    payload ≠ "" ∧
    ∃ md, Json.parse payload = some md ∧ envelopeCheck md = .ok true ∧
      ∃ bj, jsGet md "body" = .ok bj ∧
        ∃ nb, jsonParseVal bj = .ok nb ∧ bodyCheck ctx nb = .ok true ∧
          buildRecord ctx nb = .ok r := by
  unfold processNotificationPayloadE at h
  split at h
  · exact absurd h (by simp)
  next hne =>
    split at h
    · exact absurd h (by simp)
    next md hmd =>
      split at h
      · exact absurd h (by simp)
      · exact absurd h (by simp)
      next henv =>
        split at h
        · exact absurd h (by simp)
        next bj hbj =>
          split at h
          · exact absurd h (by simp)
          next nb hnb =>
            split at h
            · exact absurd h (by simp)
            · exact absurd h (by simp)
            next hbc =>
              split at h
              · exact absurd h (by simp)
              next rr hbr =>
                simp only [Except.ok.injEq, Option.some.injEq] at h
                exact ⟨hne, md, hmd, henv, bj, hbj, nb, hnb, hbc,
                  by rw [hbr, h]⟩

theorem ppayload_some {ctx : EmitCtx} {payload : String}
    {r : NotificationRecord}
    (h : processNotificationPayload ctx payload = some r) :
    processNotificationPayloadE ctx payload = .ok (some r) := by
  unfold processNotificationPayload at h
  split at h
  next o ho => rw [ho, h]
  next => exact absurd h (by simp)

theorem pws_some {ctx : EmitCtx} {p : String} {r : NotificationRecord}
    (h : processWebSocketMessage ctx p = some r) :
    strStartsWith p "5:" = false ∧ p.data.contains '{' = true ∧
    processNotificationPayload ctx (braceSuffix p) = some r := by
  unfold processWebSocketMessage at h
  split at h
  · exact absurd h (by simp)
  next h5 =>
    split at h
    next hbr => exact ⟨by simpa using h5, hbr, h⟩
    next => exact absurd h (by simp)

/-! ## Concrete fixtures -/

/-- An emission context with an active session. -/
def ctxA : EmitCtx := ⟨some "sess1", "2024-01-01T00:00:00.000Z", "msg_gen_1"⟩

/-- The spec scenario frame: a `POST` to a `v4/f…/messaging` URL whose body is
a `NewMessage` event with HTML content and a sender; it carries only the
camel-case `messageType`. -/
def frameA : String :=
  "\x7b\"url\":\"https://x/v4/f1/messaging\",\"method\":\"POST\",\"body\":\"\x7b\\\"type\\\":\\\"EventMessage\\\",\\\"resourceType\\\":\\\"NewMessage\\\",\\\"resource\\\":\x7b\\\"content\\\":\\\"<p>Hi</p>\\\",\\\"messageType\\\":\\\"Text\\\",\\\"imdisplayname\\\":\\\"Alice\\\"\x7d\x7d\"\x7d"

/-- The record `frameA` produces under `ctxA`. -/
def recordA : NotificationRecord :=
  { id := .str "msg_gen_1", sessionId := "sess1",
    timestamp := .str "2024-01-01T00:00:00.000Z", «from» := .str "Alice",
    content := "Hi", conversationId := .str "", conversationName := .str "",
    messageType := .str "Text", isRead := false }

/-- A frame passing the envelope filter whose body is malformed JSON. -/
def frameBadBody : String :=
  "\x7b\"url\":\"https://x/v4/f1/messaging\",\"method\":\"POST\",\"body\":\"\x7boops\"\x7d"

/-- The envelope `frameBadBody` parses to. -/
def mdBadBody : Json :=
  .obj [("url", .str "https://x/v4/f1/messaging"), ("method", .str "POST"),
        ("body", .str "\x7boops")]

/-! ## C1 — every filter stage is necessary for emission -/

/-- **C1**: the pipeline emits a record only if every filter stage passed: the
frame does not start with the `5:` keep-alive sentinel, contains a `{`, the
suffix from the first `{` parses as JSON whose `url` is a string containing
`v4/f` and ending in `/messaging`, whose `method` is loosely equal
(`==`, with ToPrimitive coercion) to `"POST"`, and whose `body` is present
and itself parses as JSON (after the ToString coercion `JSON.parse` applies)
with `type == "EventMessage"`, `resourceType == "NewMessage"`, a non-empty
`resource.content` and a truthy `resource.messageType` containing no
denylisted substring.  Contrapositively, any input failing one of these
stages yields `null`. -/
theorem onFrame_null_unless_all_stages_pass {ctx : EmitCtx} {p : String}
    {r : NotificationRecord} (h : processWebSocketMessage ctx p = some r) :
    strStartsWith p "5:" = false ∧ p.data.contains '{' = true ∧
    ∃ md nb,
      Json.parse (braceSuffix p) = some md ∧
      (∃ us, jsGet md "url" = .ok (.str us) ∧ strIncludes us "v4/f" = true ∧
        strEndsWith us "/messaging" = true) ∧
      (∃ m, jsGet md "method" = .ok m ∧ jsEqStr m "POST" = true) ∧
      (∃ bj, jsGet md "body" = .ok bj ∧ truthy bj = true ∧
        Json.parse (jsToString bj) = some nb) ∧
      (∃ ty, jsGet nb "type" = .ok ty ∧ jsEqStr ty "EventMessage" = true) ∧
      (∃ rt, jsGet nb "resourceType" = .ok rt ∧
        jsEqStr rt "NewMessage" = true) ∧
      ∃ res, jsGet nb "resource" = .ok res ∧
        (∃ cs, jsGet res "content" = .ok (.str cs) ∧ cs ≠ "") ∧
        ∃ mt, jsGet res "messageType" = .ok mt ∧ truthy mt = true ∧
          anyIncludes mt dontContains = .ok false := by
  obtain ⟨h5, hbrace, hp⟩ := pws_some h
  obtain ⟨hne, md, hmd, henv, bj, hbj, nb, hnb, hbc, hbuild⟩ :=
    ppayloadE_some (ppayload_some hp)
  obtain ⟨⟨us, hurl, hinc, hend⟩, ⟨b, hb, hbt⟩, m, hm, hmeq⟩ :=
    envelopeCheck_ok_true henv
  obtain ⟨⟨res, hres, hrest, ⟨c, hcontent, hct⟩, ⟨mt, hmt, hmtt, hany⟩⟩,
    ⟨ty, hty, htyeq⟩, ⟨rt, hrt, hrteq⟩, hsess⟩ := bodyCheck_ok_true hbc
  obtain ⟨cs, hcs, hrec⟩ := buildRecord_ok hbuild
  have hbeq : b = bj := Except.ok.inj (hb.symm.trans hbj)
  have hresv : res = jget nb "resource" := jsGet_ok_eq hres
  have hcv : c = .str cs := by
    have h1 := jsGet_of_truthy hrest "content"
    rw [hcontent] at h1
    simp only [Except.ok.injEq] at h1
    rw [h1, hresv]
    exact hcs
  refine ⟨h5, hbrace, md, nb, hmd, ⟨us, hurl, hinc, hend⟩, ⟨m, hm, hmeq⟩,
    ⟨bj, hbj, hbeq ▸ hbt, jsonParseVal_ok hnb⟩, ⟨ty, hty, htyeq⟩,
    ⟨rt, hrt, hrteq⟩, res, hres, ⟨cs, ?_, ?_⟩, mt, hmt, hmtt, hany⟩
  · rw [← hcv]; exact hcontent
  · rw [hcv] at hct; simpa [truthy] using hct

/-- **C1 witness**: the scenario frame passes every stage and is emitted. -/
theorem onFrame_null_unless_all_stages_pass_witness :
    processWebSocketMessage ctxA frameA = some recordA ∧
    (strStartsWith frameA "5:" = false ∧ frameA.data.contains '{' = true ∧
    ∃ md nb,
      Json.parse (braceSuffix frameA) = some md ∧
      (∃ us, jsGet md "url" = .ok (.str us) ∧ strIncludes us "v4/f" = true ∧
        strEndsWith us "/messaging" = true) ∧
      (∃ m, jsGet md "method" = .ok m ∧ jsEqStr m "POST" = true) ∧
      (∃ bj, jsGet md "body" = .ok bj ∧ truthy bj = true ∧
        Json.parse (jsToString bj) = some nb) ∧
      (∃ ty, jsGet nb "type" = .ok ty ∧ jsEqStr ty "EventMessage" = true) ∧
      (∃ rt, jsGet nb "resourceType" = .ok rt ∧
        jsEqStr rt "NewMessage" = true) ∧
      ∃ res, jsGet nb "resource" = .ok res ∧
        (∃ cs, jsGet res "content" = .ok (.str cs) ∧ cs ≠ "") ∧
        ∃ mt, jsGet res "messageType" = .ok mt ∧ truthy mt = true ∧
          anyIncludes mt dontContains = .ok false) :=
  ⟨rfl, @onFrame_null_unless_all_stages_pass ctxA frameA recordA rfl⟩

/-! ## C3 — totality and silent drops -/

/-- **C3**: `onFrame` is total — every input yields exactly one record or
`null` — and never raises: a raise inside `processNotificationPayload` is
caught and yields `null`; in particular malformed frame JSON and malformed
body JSON are dropped silently. -/
theorem onFrame_total_silent_drop (ctx : EmitCtx) (p : String) :
    ((∃ r, processWebSocketMessage ctx p = some r) ∨
      processWebSocketMessage ctx p = none) ∧
    (∀ e, processNotificationPayloadE ctx p = .error e →
      processNotificationPayload ctx p = none) ∧
    (Json.parse p = none → p ≠ "" → processNotificationPayload ctx p = none) ∧
    (∀ md bs, Json.parse p = some md → envelopeCheck md = .ok true →
      jsGet md "body" = .ok (.str bs) → Json.parse bs = none →
      processNotificationPayload ctx p = none) := by
  refine ⟨?_, ?_, ?_, ?_⟩
  · cases hr : processWebSocketMessage ctx p
    · exact Or.inr rfl
    · exact Or.inl ⟨_, rfl⟩
  · intro e he
    unfold processNotificationPayload
    rw [he]
  · intro hnone hne
    unfold processNotificationPayload processNotificationPayloadE
    rw [if_neg hne, hnone]
  · intro md bs hmd henv hbody hbad
    have hne : ¬ p = "" := by
      intro hp
      subst hp
      rw [show Json.parse "" = none from rfl] at hmd
      cases hmd
    unfold processNotificationPayload processNotificationPayloadE
    rw [if_neg hne, hmd]
    simp only [henv, hbody, jsonParseVal, jsToString, hbad]

/-- **C3 witness**: a malformed frame and a well-enveloped frame with a
malformed body are both dropped silently. -/
theorem onFrame_total_silent_drop_witness :
    processNotificationPayload ctxA "\x7boops" = none ∧
    processNotificationPayload ctxA frameBadBody = none :=
  ⟨(onFrame_total_silent_drop ctxA "\x7boops").2.2.1 rfl (by decide),
   (onFrame_total_silent_drop ctxA frameBadBody).2.2.2 mdBadBody "\x7boops"
     rfl rfl rfl rfl⟩

/-! ## C2 — the field mapping of the record -/

/-- A frame whose envelope carries a `time`, whose body has no `time`, and
whose resource has no `imdisplayname`. -/
def frameNoFrom : String :=
  "\x7b\"url\":\"https://x/v4/f1/messaging\",\"method\":\"POST\",\"time\":\"2023-05-05T05:05:05.000Z\",\"body\":\"\x7b\\\"type\\\":\\\"EventMessage\\\",\\\"resourceType\\\":\\\"NewMessage\\\",\\\"resource\\\":\x7b\\\"content\\\":\\\"Hi\\\",\\\"messageType\\\":\\\"Text\\\"\x7d\x7d\"\x7d"

/-- The envelope `frameNoFrom` parses to. -/
def mdNoFrom : Json :=
  .obj [("url", .str "https://x/v4/f1/messaging"), ("method", .str "POST"),
        ("time", .str "2023-05-05T05:05:05.000Z"),
        ("body", .str "\x7b\"type\":\"EventMessage\",\"resourceType\":\"NewMessage\",\"resource\":\x7b\"content\":\"Hi\",\"messageType\":\"Text\"\x7d\x7d")]

/-- The record `frameNoFrom` produces under `ctxA`. -/
def recordNoFrom : NotificationRecord :=
  { id := .str "msg_gen_1", sessionId := "sess1",
    timestamp := .str "2024-01-01T00:00:00.000Z", «from» := .str "Unknown",
    content := "Hi", conversationId := .str "", conversationName := .str "",
    messageType := .str "Text", isRead := false }

/-- **C2 counterexample**: at a frame whose envelope has a `time` field, whose
body lacks one, and whose resource lacks `imdisplayname`, the emitted
record has `from` equal to `"Unknown"` — not the empty-string
fallback the claim states — and has `timestamp` equal to the current time,
not the `time` of the envelope the claim says it is taken from. -/
theorem record_fields_counterexample :
    processWebSocketMessage ctxA frameNoFrom = some recordNoFrom ∧
    Json.parse frameNoFrom = some mdNoFrom ∧
    jget mdNoFrom "time" = .str "2023-05-05T05:05:05.000Z" ∧
    recordNoFrom.«from» = .str "Unknown" ∧ Json.str "Unknown" ≠ .str "" ∧
    recordNoFrom.timestamp = .str ctxA.nowIso ∧
    Json.str ctxA.nowIso ≠ .str "2023-05-05T05:05:05.000Z" := by
  refine ⟨rfl, rfl, rfl, rfl, ?_, rfl, ?_⟩ <;> simp [ctxA]

/-- **C2 amended**: for every emitted record, `content` is the HTML-stripping
normalizer applied to `resource.content`; `timestamp` is taken from the
`time` field of the parsed *body*, or the current time when absent; `from` is
taken from `resource.imdisplayname` with fallback `"Unknown"` when absent;
`conversationId`/`conversationName` come from `resource.to` /
`resource.threadtopic` with empty-string fallback; `isRead` is `false`; and
`id` is `resource.id` or the freshly generated token when absent. -/
theorem record_fields_amended {ctx : EmitCtx} {p : String}
    {r : NotificationRecord} (h : processWebSocketMessage ctx p = some r) :
    ∃ md nb, Json.parse (braceSuffix p) = some md ∧
      (∃ bj, jsGet md "body" = .ok bj ∧
        Json.parse (jsToString bj) = some nb) ∧
      ∃ cs, jget (jget nb "resource") "content" = .str cs ∧
        r.content = extractTextFromHtml cs ∧
        r.timestamp = jsOr (jget nb "time") (.str ctx.nowIso) ∧
        r.«from» = jsOr (jget (jget nb "resource") "imdisplayname")
          (.str "Unknown") ∧
        r.conversationId = jsOr (jget (jget nb "resource") "to") (.str "") ∧
        r.conversationName = jsOr (jget (jget nb "resource") "threadtopic")
          (.str "") ∧
        r.isRead = false ∧
        r.id = jsOr (jget (jget nb "resource") "id") (.str ctx.freshId) ∧
        ctx.currentSession = some r.sessionId := by
  obtain ⟨h5, hbrace, hp⟩ := pws_some h
  obtain ⟨hne, md, hmd, henv, bj, hbj, nb, hnb, hbc, hbuild⟩ :=
    ppayloadE_some (ppayload_some hp)
  obtain ⟨cs, hcs, hrec⟩ := buildRecord_ok hbuild
  subst hrec
  refine ⟨md, nb, hmd, ⟨bj, hbj, jsonParseVal_ok hnb⟩, cs, hcs, rfl, rfl,
    rfl, rfl, rfl, rfl, rfl, ?_⟩
  obtain ⟨_, _, _, hsess⟩ := bodyCheck_ok_true hbc
  cases hs : ctx.currentSession with
  | none => simp [hs, sessionTruthy] at hsess
  | some s => simp [hs]

/-- **C2 amended witness**: the scenario frame maps to `content = "Hi"`,
`from = "Alice"` and the fallback fields. -/
theorem record_fields_amended_witness :
    processWebSocketMessage ctxA frameA = some recordA ∧
    (∃ md nb, Json.parse (braceSuffix frameA) = some md ∧
      (∃ bj, jsGet md "body" = .ok bj ∧
        Json.parse (jsToString bj) = some nb) ∧
      ∃ cs, jget (jget nb "resource") "content" = .str cs ∧
        recordA.content = extractTextFromHtml cs ∧
        recordA.timestamp = jsOr (jget nb "time") (.str ctxA.nowIso) ∧
        recordA.«from» = jsOr (jget (jget nb "resource") "imdisplayname")
          (.str "Unknown") ∧
        recordA.conversationId = jsOr (jget (jget nb "resource") "to")
          (.str "") ∧
        recordA.conversationName = jsOr (jget (jget nb "resource")
          "threadtopic") (.str "") ∧
        recordA.isRead = false ∧
        recordA.id = jsOr (jget (jget nb "resource") "id")
          (.str ctxA.freshId) ∧
        ctxA.currentSession = some recordA.sessionId) :=
  ⟨rfl, @record_fields_amended ctxA frameA recordA rfl⟩

/-! ## C9 — `messageType` comes from the lowercase key -/

/-- **C9**: the `messageType` of the emitted record is read from the lowercase
body property `resource.messagetype` with fallback `"Text"` — not from the
camel-case `resource.messageType` the denylist filter inspects — so a body
with no lowercase `messagetype` yields `"Text"` regardless of the filtered
value. -/
theorem messageType_from_lowercase_key {ctx : EmitCtx} {p : String}
    {r : NotificationRecord} (h : processWebSocketMessage ctx p = some r) :
    ∃ md nb, Json.parse (braceSuffix p) = some md ∧
      (∃ bj, jsGet md "body" = .ok bj ∧
        Json.parse (jsToString bj) = some nb) ∧
      r.messageType = jsOr (jget (jget nb "resource") "messagetype")
        (.str "Text") ∧
      (jget (jget nb "resource") "messagetype" = .undefined →
        r.messageType = .str "Text") := by
  obtain ⟨h5, hbrace, hp⟩ := pws_some h
  obtain ⟨hne, md, hmd, henv, bj, hbj, nb, hnb, hbc, hbuild⟩ :=
    ppayloadE_some (ppayload_some hp)
  obtain ⟨cs, hcs, hrec⟩ := buildRecord_ok hbuild
  subst hrec
  refine ⟨md, nb, hmd, ⟨bj, hbj, jsonParseVal_ok hnb⟩, rfl, ?_⟩
  intro hu
  show jsOr (jget (jget nb "resource") "messagetype") (.str "Text") =
    .str "Text"
  rw [hu]
  rfl

/-- **C9 witness**: the body of `frameA` carries only the camel-case
`messageType`, and the emitted record has `messageType` equal to `"Text"`. -/
theorem messageType_from_lowercase_key_witness :
    processWebSocketMessage ctxA frameA = some recordA ∧
    recordA.messageType = .str "Text" ∧
    (∃ md nb, Json.parse (braceSuffix frameA) = some md ∧
      (∃ bj, jsGet md "body" = .ok bj ∧
        Json.parse (jsToString bj) = some nb) ∧
      recordA.messageType = jsOr (jget (jget nb "resource") "messagetype")
        (.str "Text") ∧
      (jget (jget nb "resource") "messagetype" = .undefined →
        recordA.messageType = .str "Text")) :=
  ⟨rfl, rfl, @messageType_from_lowercase_key ctxA frameA recordA rfl⟩

/-! ## C10 — emission requires an active session -/

/-- **C10**: a record is emitted only while a monitoring session is active:
with `currentNotificationSession` null the pipeline emits nothing even for an
otherwise passing frame; the `sessionId` of an emitted record equals the active
session; and `startMonitoring` makes the session it created the active one. -/
theorem emission_requires_active_session :
    (∀ now fid p, processWebSocketMessage ⟨none, now, fid⟩ p = none) ∧
    (∀ ctx p r, processWebSocketMessage ctx p = some r →
      ctx.currentSession = some r.sessionId) ∧
    (∀ sid att client st, st.hasChromePage = true → st.isMonitoring = false →
      (startMonitoring false sid att client st).currentSession = some sid ∧
      (startMonitoring false sid att client st).isMonitoring = true) := by
  refine ⟨?_, ?_, ?_⟩
  · intro now fid p
    cases hr : processWebSocketMessage ⟨none, now, fid⟩ p with
    | none => rfl
    | some r =>
      obtain ⟨_, _, hp⟩ := pws_some hr
      obtain ⟨_, md, _, _, bj, _, nb, _, hbc, _⟩ :=
        ppayloadE_some (ppayload_some hp)
      obtain ⟨_, _, _, hsess⟩ := bodyCheck_ok_true hbc
      simp [sessionTruthy] at hsess
  · intro ctx p r h
    obtain ⟨_, _, hp⟩ := pws_some h
    obtain ⟨_, md, _, _, bj, _, nb, _, hbc, hbuild⟩ :=
      ppayloadE_some (ppayload_some hp)
    obtain ⟨cs, hcs, hrec⟩ := buildRecord_ok hbuild
    obtain ⟨_, _, _, hsess⟩ := bodyCheck_ok_true hbc
    subst hrec
    cases hs : ctx.currentSession with
    | none => simp [hs, sessionTruthy] at hsess
    | some s => simp [hs]
  · intro sid att client st h1 h2
    unfold startMonitoring
    rw [h1, h2]
    simp

/-- **C10 witness**: the scenario frame is dropped without a session, its
emitted record under `ctxA` carries the active session id, and a fresh
`startMonitoring` sets the created session. -/
theorem emission_requires_active_session_witness :
    processWebSocketMessage ⟨none, "T", "F"⟩ frameA = none ∧
    ctxA.currentSession = some recordA.sessionId ∧
    (startMonitoring false "s9" [1, 2] (some 7)
      ⟨true, none, false, [], none⟩).currentSession = some "s9" :=
  ⟨emission_requires_active_session.1 "T" "F" frameA,
   emission_requires_active_session.2.1 ctxA frameA recordA rfl,
   (emission_requires_active_session.2.2 "s9" [1, 2] (some 7)
     ⟨true, none, false, [], none⟩ rfl rfl).1⟩

/-! ## C4/C5 — the access-token scan -/

/-- Only an object chain can have a member found by lookup, and object
chains are truthy. -/
theorem memberLookup_some_truthy {pv v2 : Json} {k : String}
    (h : memberLookup k pv = some v2) : truthy pv = true := by
  cases pv <;> simp [memberLookup] at h <;> rfl

/-- A parsed value with a truthy `secret` member is truthy itself (only an
object lookup can produce a non-`undefined` member, and objects are
truthy). -/
theorem secret_truthy {pv sec : Json}
    (hsec : jsGet pv "secret" = .ok sec) (hsect : truthy sec = true) :
    truthy pv = true := by
  have hv := jsGet_ok_eq hsec
  unfold jget at hv
  cases hml : memberLookup "secret" pv with
  | some v2 => exact memberLookup_some_truthy hml
  | none =>
    rw [hml] at hv
    simp only [Option.getD_none] at hv
    rw [hv] at hsect
    simp [truthy] at hsect

/-- The spec scenario key: contains all three required substrings. -/
def tokenKeyA : String :=
  "xx-login.windows.net-accesstoken-yy-teams.accessasuser.all-zz-teams.office.com/.default-ww"

/-- The spec scenario value. -/
def tokenValA : String :=
  "\x7b\"secret\":\"abc\",\"credentialType\":\"AccessToken\"\x7d"

/-- **C4**: the scan returns the secret of the first entry whose key contains
all three required substrings and whose JSON value has `credentialType` equal
to `accesstoken` case-insensitively and a non-empty secret; entries matching
the key test but failing the value test are skipped; and the scan returns
null when no key matches all three substrings, even if some match a strict
subset. -/
theorem checkOnce_token_scan :
    (∀ store : List (String × String),
      (∀ kv ∈ store, tokenKeyMatches kv.1 = false) →
      getAccessTokenScan store = none) ∧
    (∀ pre post (k v : String) sec,
      (∀ kv ∈ pre, entryToken kv.1 kv.2 = none) →
      entryToken k v = some sec →
      getAccessTokenScan (pre ++ (k, v) :: post) = some sec) ∧
    (∀ (k v : String) pv sec (ct : String), k ≠ "" → tokenKeyMatches k = true →
      v ≠ "" → Json.parse v = some pv →
      jsGet pv "secret" = .ok sec → truthy sec = true →
      jsGet pv "credentialType" = .ok (.str ct) → ct ≠ "" →
      String.mk (ct.data.map Char.toLower) = "accesstoken" →
      entryToken k v = some sec) := by
  refine ⟨?_, ?_, ?_⟩
  · intro store hnone
    induction store with
    | nil => rfl
    | cons kv rest ih =>
      obtain ⟨k, v⟩ := kv
      have hk := hnone (k, v) (List.mem_cons_self _ _)
      have hskip : entryToken k v = none := by
        unfold entryToken
        by_cases hk0 : k = ""
        · rw [if_pos hk0]
        · rw [if_neg hk0, if_pos hk]
      unfold getAccessTokenScan
      simp only [hskip]
      exact ih (fun kv hm => hnone kv (List.mem_cons_of_mem _ hm))
  · intro pre post k v sec hpre hkv
    induction pre with
    | nil =>
      simp only [List.nil_append]
      unfold getAccessTokenScan
      simp only [hkv]
    | cons kv0 rest ih =>
      obtain ⟨k0, v0⟩ := kv0
      have h0 := hpre (k0, v0) (List.mem_cons_self _ _)
      simp only [List.cons_append]
      unfold getAccessTokenScan
      simp only [h0]
      exact ih (fun kv hm => hpre kv (List.mem_cons_of_mem _ hm))
  · intro k v pv sec ct hk hkm hv hparse hsec hsect hct hctne hlower
    have hpvt : truthy pv = true := secret_truthy hsec hsect
    have hE : entryTokenE v = .ok (some sec) := by
      unfold entryTokenE
      rw [if_neg hv, hparse]
      simp only [hpvt, hsec, hsect, hct, jsToLower, hlower]
      simp [truthy, hctne]
    unfold entryToken
    rw [if_neg hk, if_neg (by simp [hkm]), hE]

/-- **C4 witness**: the spec scenario — a key with all three substrings and
value `{"secret":"abc","credentialType":"AccessToken"}` — yields `"abc"`. -/
theorem checkOnce_token_scan_witness :
    getAccessTokenScan [(tokenKeyA, tokenValA)] = some (.str "abc") :=
  checkOnce_token_scan.2.1 [] [] tokenKeyA tokenValA (.str "abc")
    (fun kv hm => absurd hm (List.not_mem_nil kv))
    (checkOnce_token_scan.2.2 tokenKeyA tokenValA
      (.obj [("secret", .str "abc"), ("credentialType", .str "AccessToken")])
      (.str "abc") "AccessToken" (by decide) rfl (by decide) rfl rfl rfl rfl
      (by decide) rfl)

/-- **C5**: the scan never throws: it always returns a token or null, and an
entry whose key matches all three substrings but whose value is malformed
JSON is skipped, the scan continuing over the remaining entries. -/
theorem checkOnce_never_throws :
    (∀ store, getAccessTokenScan store = none ∨
      ∃ t, getAccessTokenScan store = some t) ∧
    (∀ (k v : String) rest, tokenKeyMatches k = true → Json.parse v = none →
      getAccessTokenScan ((k, v) :: rest) = getAccessTokenScan rest) := by
  refine ⟨?_, ?_⟩
  · intro store
    cases h : getAccessTokenScan store
    · exact Or.inl rfl
    · exact Or.inr ⟨_, rfl⟩
  · intro k v rest hkm hbad
    have hk : ¬ k = "" := by
      intro h0
      subst h0
      rw [show tokenKeyMatches "" = false from rfl] at hkm
      cases hkm
    have hskip : entryToken k v = none := by
      unfold entryToken
      rw [if_neg hk, if_neg (by simp [hkm])]
      by_cases hv : v = ""
      · simp only [entryTokenE, if_pos hv]
      · simp only [entryTokenE, if_neg hv, hbad]
    conv_lhs => rw [getAccessTokenScan]
    simp only [hskip]

/-- **C5 witness**: a matching key with malformed JSON is skipped and the
scan still finds the later valid entry. -/
theorem checkOnce_never_throws_witness :
    getAccessTokenScan [(tokenKeyA, "\x7boops"), (tokenKeyA, tokenValA)] =
      getAccessTokenScan [(tokenKeyA, tokenValA)] :=
  checkOnce_never_throws.2 tokenKeyA "\x7boops" [(tokenKeyA, tokenValA)] rfl rfl

/-! ## C6 — the authentication poll loop -/

theorem authStep_valid {t : String} (hv : (authStep (some t)).1 = true) :
    authStep (some t) = (true, some t) := by
  by_cases h : strTrim t = "" <;> simp [authStep, h] at hv ⊢

/-- The report log lists exactly one `authStep` result per poll, oldest
first, and the poll count is between 1 and `remaining + 1` past `n`. -/
theorem monitorGo_log (checks : Nat → Option String) :
    ∀ r n, (monitorGo checks r n).2.2 =
        (List.range ((monitorGo checks r n).2.1 - n)).map
          (fun i => authStep (checks (n + i))) ∧
      n < (monitorGo checks r n).2.1 ∧
      (monitorGo checks r n).2.1 ≤ n + r + 1 := by
  intro r
  induction r with
  | zero =>
    intro n
    by_cases h : (authStep (checks n)).1 <;>
      simp [monitorGo, h, List.range_succ]
  | succ r ih =>
    intro n
    by_cases h : (authStep (checks n)).1
    · simp [monitorGo, h, List.range_succ]
    · obtain ⟨hlog, hlt, hle⟩ := ih (n + 1)
      have hsub : (monitorGo checks r (n + 1)).2.1 - n =
          ((monitorGo checks r (n + 1)).2.1 - (n + 1)) + 1 := by omega
      refine ⟨?_, by simp [monitorGo, h]; omega, by simp [monitorGo, h]; omega⟩
      simp only [monitorGo, h, if_false, Bool.false_eq_true]
      rw [hsub, List.range_succ_eq_map, List.map_cons, List.map_map]
      simp only [Nat.add_zero]
      refine congrArg (authStep (checks n) :: ·) ?_
      rw [hlog]
      refine List.map_congr_left (fun i hm => ?_)
      simp [Function.comp]
      refine congrArg (fun z => authStep (checks z)) (by omega)

/-- When every poll in budget fails, the loop times out after using the full
budget. -/
theorem monitorGo_all_fail (checks : Nat → Option String) :
    ∀ r n, (∀ i, n ≤ i → i ≤ n + r → (authStep (checks i)).1 = false) →
      (monitorGo checks r n).1 = .timedOut ∧
      (monitorGo checks r n).2.1 = n + r + 1 := by
  intro r
  induction r with
  | zero =>
    intro n hf
    have h := hf n le_rfl (by omega)
    simp [monitorGo, h]
  | succ r ih =>
    intro n hf
    have h := hf n le_rfl (by omega)
    obtain ⟨h1, h2⟩ := ih (n + 1) (fun i hi1 hi2 => hf i (by omega) (by omega))
    refine ⟨by simp [monitorGo, h, h1], by simp [monitorGo, h, h2]; omega⟩

/-- A first valid token at tick `k` within budget stops the loop
authenticated with that token after `k + 1` polls. -/
theorem monitorGo_success (checks : Nat → Option String) :
    ∀ r n k t, n ≤ k → k ≤ n + r →
      (∀ i, n ≤ i → i < k → (authStep (checks i)).1 = false) →
      checks k = some t → (authStep (checks k)).1 = true →
      (monitorGo checks r n).1 = .authenticated t ∧
      (monitorGo checks r n).2.1 = k + 1 := by
  intro r
  induction r with
  | zero =>
    intro n k t h1 h2 hf hck hv
    have hk : k = n := by omega
    subst hk
    rw [hck] at hv
    have hrep := authStep_valid hv
    constructor <;> simp [monitorGo, hck, hrep]
  | succ r ih =>
    intro n k t h1 h2 hf hck hv
    by_cases hk : k = n
    · subst hk
      rw [hck] at hv
      have hrep := authStep_valid hv
      constructor <;> simp [monitorGo, hck, hrep]
    · have h := hf n le_rfl (by omega)
      obtain ⟨g1, g2⟩ := ih (n + 1) k t (by omega) (by omega)
        (fun i hi1 hi2 => hf i (by omega) hi2) hck hv
      constructor <;> simp [monitorGo, h, g1, g2]

/-- **C6**: `monitorAuthentication` polls the token probe every
`authCheckIntervalMs = 2000` ms for at most its budget of attempts (the
source fixes the budget at `maxAuthChecks = 120`); the result of every poll is
reported to the UI via a `teams-auth-status` notification; the loop stops
authenticated on the first valid token and otherwise times out after exactly
the budgeted number of polls — in particular a budget of 1 with the probe
always null gives `TIMED_OUT` after exactly one poll. -/
theorem monitorAuthentication_spec :
    authCheckIntervalMs = 2000 ∧ maxAuthChecks = 120 ∧
    ∀ (checks : Nat → Option String) (m : Nat), 0 < m →
      ((monitorAuthentication checks m).2.2 =
        (List.range (monitorAuthentication checks m).2.1).map
          (fun i => authStep (checks i)) ∧
       (monitorAuthentication checks m).2.1 ≤ m) ∧
      ((∀ i, i < m → (authStep (checks i)).1 = false) →
        (monitorAuthentication checks m).1 = .timedOut ∧
        (monitorAuthentication checks m).2.1 = m) ∧
      (∀ k t, k < m → (∀ i, i < k → (authStep (checks i)).1 = false) →
        checks k = some t → (authStep (checks k)).1 = true →
        (monitorAuthentication checks m).1 = .authenticated t ∧
        (monitorAuthentication checks m).2.1 = k + 1) := by
  refine ⟨rfl, rfl, ?_⟩
  intro checks m hm
  refine ⟨⟨?_, ?_⟩, ?_, ?_⟩
  · obtain ⟨hlog, _, _⟩ := monitorGo_log checks (m - 1) 0
    unfold monitorAuthentication
    rw [hlog]
    simp
  · obtain ⟨_, _, hle⟩ := monitorGo_log checks (m - 1) 0
    unfold monitorAuthentication
    omega
  · intro hfail
    obtain ⟨h1, h2⟩ := monitorGo_all_fail checks (m - 1) 0
      (fun i hi1 hi2 => hfail i (by omega))
    unfold monitorAuthentication
    exact ⟨h1, by omega⟩
  · intro k t hk hfail hck hv
    exact monitorGo_success checks (m - 1) 0 k t (by omega) (by omega)
      (fun i hi1 hi2 => hfail i hi2) hck hv

/-- **C6 witness**: budget 1 with the probe always null times out after
exactly one poll. -/
theorem monitorAuthentication_spec_witness :
    (0 : Nat) < 1 ∧
    (monitorAuthentication (fun _ => none) 1).1 = .timedOut ∧
    (monitorAuthentication (fun _ => none) 1).2.1 = 1 :=
  ⟨Nat.one_pos,
   ((monitorAuthentication_spec.2.2 (fun _ => none) 1 Nat.one_pos).2.1
     (fun i hi => rfl)).1,
   ((monitorAuthentication_spec.2.2 (fun _ => none) 1 Nat.one_pos).2.1
     (fun i hi => rfl)).2⟩

/-! ## C7/C8 — teardown -/

/-- The per-session handlers keep any detach raise from escaping: the detach
loop always completes normally, however many detaches fail. -/
theorem detachLoop_ok (env : StopEnv) : ∀ l, detachLoop env l = .ok () := by
  intro l
  induction l with
  | nil => rfl
  | cons s rest ih => by_cases h : env.sessionDetachFails s <;>
      simp [detachLoop, h, ih]

/-- The main-client detach never touches the tracked set. -/
theorem detachMainClient_sessions (env : StopEnv) (st : NMState) :
    (detachMainClient env st).activeSessions = st.activeSessions := by
  unfold detachMainClient
  split
  · split
    · split <;> rfl
    · rfl
  · rfl

/-- Whether the body of `stopMonitoring` finishes or raises at
`endNotificationSession`, the state it leaves has an empty session set. -/
theorem stopMonitoringBody_sessions (env : StopEnv) (st : NMState) :
    (∀ s, stopMonitoringBody env st = .ok s → s.activeSessions = []) ∧
    (∀ s, stopMonitoringBody env st = .error s → s.activeSessions = []) := by
  unfold stopMonitoringBody
  simp only [detachLoop_ok]
  have key : (detachMainClient env
      { st with activeSessions := [] }).activeSessions = [] := by
    rw [detachMainClient_sessions]
  constructor <;> intro s hs <;> split at hs
  · split at hs
    · exact absurd hs (by simp)
    · simp only [Except.ok.injEq] at hs
      subst hs
      exact key
  · simp only [Except.ok.injEq] at hs
    subst hs
    exact key
  · split at hs
    · simp only [Except.error.injEq] at hs
      subst hs
      exact key
    · exact absurd hs (by simp)
  · exact absurd hs (by simp)

/-- **C7**: after `stopMonitoring` on an active monitor, the tracked CDP
session set is empty, for every starting set and regardless of which detach
calls fail: each per-session failure is swallowed by its own handler (the
detach loop always completes), and neither a main-client detach failure nor
an `endNotificationSession` failure undoes the clearing of the set. -/
theorem stopMonitoring_clears_sessions (env : StopEnv) (st : NMState)
    (h : st.isMonitoring = true) :
    detachLoop env st.activeSessions = .ok () ∧
    (stopMonitoring env st).activeSessions = [] := by
  refine ⟨detachLoop_ok env _, ?_⟩
  unfold stopMonitoring
  rw [h, if_neg (by simp)]
  cases hb : stopMonitoringBody env st with
  | ok s => exact (stopMonitoringBody_sessions env st).1 s hb
  | error s => exact (stopMonitoringBody_sessions env st).2 s hb

/-- A fully failing teardown environment. -/
def stopEnvAllFail : StopEnv := ⟨fun _ => true, fun _ => true, true⟩

/-- A monitoring state with several tracked sessions. -/
def nmStateBusy : NMState := ⟨true, some 5, true, [1, 2, 3], some "sess1"⟩

/-- **C7 witness**: with every detach and the session-store call failing, the
tracked set still ends empty. -/
theorem stopMonitoring_clears_sessions_witness :
    detachLoop stopEnvAllFail nmStateBusy.activeSessions = .ok () ∧
    (stopMonitoring stopEnvAllFail nmStateBusy).activeSessions = [] :=
  stopMonitoring_clears_sessions stopEnvAllFail nmStateBusy rfl

theorem stopMonitoringRun_ok (env : StopEnv) (st : NMState) :
    stopMonitoringRun env st = .ok (stopMonitoring env st) := by
  unfold stopMonitoringRun stopMonitoring
  by_cases h : st.isMonitoring = false
  · simp [h]
  · simp only [h, if_false]
    cases stopMonitoringBody env st <;> rfl

theorem stopChromeRun_ok (env : StopChromeEnv) (st : TMState) :
    stopChromeRun env st = .ok (stopChrome env st) := by
  unfold stopChromeRun stopChrome
  cases stopChromeBody env st <;> rfl

/-- **C8**: `stopMonitoring` and `stopChrome` never propagate a raise, for
every state — including partially initialized ones with no page, client,
timer, tracked session or session id — and for repeated calls: every raise
inside is caught, so both calls always return normally. -/
theorem stop_routines_never_throw :
    (∀ env st, stopMonitoringRun env st = .ok (stopMonitoring env st)) ∧
    (∀ env st, stopChromeRun env st = .ok (stopChrome env st)) ∧
    (∀ env env2 st, stopMonitoringRun env2 (stopMonitoring env st) =
      .ok (stopMonitoring env2 (stopMonitoring env st))) ∧
    (∀ env env2 st, stopChromeRun env2 (stopChrome env st).1 =
      .ok (stopChrome env2 (stopChrome env st).1)) :=
  ⟨stopMonitoringRun_ok, stopChromeRun_ok,
   fun _ env2 _ => stopMonitoringRun_ok env2 _,
   fun _ env2 _ => stopChromeRun_ok env2 _⟩

end Dotbot
